import Mathlib

/-!
Shallow embedding of the UDP log relay (src/udp_log_relay.py, src/config.py).

The watched file's bytes are modelled as `List Char` (the file is opened in
text mode, so universal-newline translation means the only line terminator
seen by `readline` is the character LF; `rstrip` nevertheless strips both LF
and CR, as in the source).  POSIX timestamps are modelled as `Int` (the
claims only use their strict order), retry delays as `ℚ` (the backoff
multiplies by 1.5 and caps at 5.0).  Environment interaction (`stat`,
`open`, `readline` faults, `sendto` results) is passed in explicitly as
function arguments, so every definition is an executable function of the
state plus the environment's answers.
-/

namespace UDPLogRelay

/-- Result of `path.stat()`: inode, modification time, size
(`st_ino`, `st_mtime`, `st_size`). -/
structure Fingerprint where
  ino : Nat
  mtime : Int
  size : Nat
deriving DecidableEq

/-- The mutable file-tracking state of `UDPLogRelay`:
`log_file` (whether a handle is open), `file_position`, `file_inode`,
`file_mtime`, and the `rotation_count` statistic touched by rotation
handling. -/
structure RelayState where
  log_file : Bool
  file_position : Nat
  file_inode : Option Nat
  file_mtime : Option Int
  rotation_count : Nat
deriving DecidableEq

/-- Outcome of the probe `self.log_file.read(1)` performed at
`self.file_position` in Method 4 of `check_file_rotation`. -/
inductive ProbeResult
  | someByte
  | zeroBytes
  | ioFault
deriving DecidableEq

/-- `UDPLogRelay.check_file_rotation` (src/udp_log_relay.py lines 148–193).
`statResult` is `none` when `self.log_file_path.exists()` is false (or the
stat fails, which the outer handler also turns into `True`); otherwise it is
the fresh stat of the path.  `probe` is what `self.log_file.read(1)` would
return if executed. -/
def check_file_rotation (st : RelayState) (statResult : Option Fingerprint)
    (probe : ProbeResult) : Bool :=
  match statResult with
  | none => true
  | some fp =>
    -- Method 1: inode changed
    if (match st.file_inode with
        | some i => decide (fp.ino ≠ i)
        | none => false) then true
    -- Method 2: size smaller than our last position
    else if decide (fp.size < st.file_position) then true
    -- Method 3: modification time went backwards
    else if (match st.file_mtime with
        | some m => decide (fp.mtime < m)
        | none => false) then true
    -- Method 4: read probe, guarded by size < position again
    else if st.log_file && decide (0 < st.file_position)
        && decide (fp.size < st.file_position) then
      match probe with
      | ProbeResult.someByte => false
      | ProbeResult.zeroBytes => true
      | ProbeResult.ioFault => true
    else false

/-- The fingerprint-based rotation rules 1–4 of the spec, restricted to the
case where the path still resolves (rule 1 is the `none` case of the stat). -/
def rotationSignal (st : RelayState) (fp : Fingerprint) : Prop :=
  (∃ i, st.file_inode = some i ∧ fp.ino ≠ i) ∨
  fp.size < st.file_position ∨
  (∃ m, st.file_mtime = some m ∧ fp.mtime < m)

/-- `line.rstrip(chars)` for `chars = "\n\r"`: removes every trailing LF or
CR character (src/udp_log_relay.py line 260). -/
def rstripNR (l : List Char) : List Char :=
  (List.dropWhile (fun c => c == '\n' || c == '\r') l.reverse).reverse

/-- One `self.log_file.readline()` call on the not-yet-consumed suffix `s` of
the file: returns the first line including its terminator together with the
rest.  The returned line is empty iff `s` is empty (EOF); a suffix with no
terminator is returned whole — Python's `readline` does not hold back an
unterminated final fragment. -/
def readlineSplit : List Char → List Char × List Char
  | [] => ([], [])
  | c :: cs =>
    if c = '\n' then ([c], cs)
    else (c :: (readlineSplit cs).1, (readlineSplit cs).2)

/-- The decomposition of a character sequence into `readline` units: every
element ends with LF except possibly the last (the unterminated fragment). -/
def splitKeepNL : List Char → List (List Char)
  | [] => []
  | c :: cs =>
    if c = '\n' then [c] :: splitKeepNL cs
    else
      match splitKeepNL cs with
      | [] => [[c]]
      | l :: ls => (c :: l) :: ls

/-- The `while True` readline loop of `read_new_lines`
(src/udp_log_relay.py lines 251–266), operating on the suffix `s` of the
file past the current seek position.  `fault = some j` means the `j`-th
`readline()` call (0-based) raises `OSError`; the handler logs a warning and
breaks, leaving the handle where the last successful `readline` left it.
Returns the accumulated `new_lines` and the number of characters consumed
(`tell()` minus the starting position).  `fuel` bounds the iterations; every
successful `readline` on a non-empty rest consumes at least one character,
so `s.length + 1` iterations always reach EOF or the fault. -/
def readLinesLoop : Nat → List Char → Option Nat → List (List Char) × Nat
  | 0, _, _ => ([], 0)
  | fuel + 1, s, fault =>
    if fault = some 0 then ([], 0)
    else
      let line := (readlineSplit s).1
      if line = [] then ([], 0)
      else
        let next := readLinesLoop fuel (readlineSplit s).2
          (Option.map (fun k => k - 1) fault)
        let stripped := rstripNR line
        if stripped = [] then (next.1, line.length + next.2)
        else (stripped :: next.1, line.length + next.2)

/-- What a call to `read_new_lines` does, seen from the caller: either it
returns the list `new_lines`, or the outer handler ran on a fault raised
before `new_lines` was assigned and the trailing `return new_lines`
itself raises `UnboundLocalError`. -/
inductive ReadResult
  | ok (ls : List (List Char))
  | unboundLocalError
deriving DecidableEq

/-- The lines carried by a `ReadResult` (empty when the call raised). -/
def ReadResult.lines : ReadResult → List (List Char)
  | ReadResult.ok ls => ls
  | ReadResult.unboundLocalError => []

/-- `UDPLogRelay.read_new_lines` (src/udp_log_relay.py lines 232–280).
`hasFile` is whether `self.log_file` is open; `statOk` is whether
`self.log_file_path.stat()` succeeds (when it raises, the outer handler sets
`self.file_position = 0` and then `return new_lines` raises
`UnboundLocalError` because the loop was never reached); `content` is the
file's current contents (so `stat().st_size = content.length`); `pos` is
`self.file_position`; `fault` as in `readLinesLoop`.  Returns the call's
outcome together with the new `self.file_position`
(`self.log_file.tell()` after the loop). -/
def read_new_lines (hasFile statOk : Bool) (content : List Char) (pos : Nat)
    (fault : Option Nat) : ReadResult × Nat :=
  if !hasFile then (ReadResult.ok [], pos)
  else if !statOk then (ReadResult.unboundLocalError, 0)
  else if content.length ≤ pos then (ReadResult.ok [], pos)
  else
    let s := content.drop pos
    let r := readLinesLoop (s.length + 1) s fault
    (ReadResult.ok r.1, pos + r.2)

/-- Outcome of one iteration of the `while self.running` loop of `run`
(src/udp_log_relay.py lines 374–411) as far as `read_new_lines` is
concerned: either the iteration obtained a batch and continues, or an
exception escaped `read_new_lines`, was caught by the `except` clause at the
`try` around the whole loop, and the `finally` clause ran `cleanup()`. -/
inductive LoopOutcome
  | continues (batch : List (List Char)) (pos : Nat)
  | terminated (cleanupRan : Bool)
deriving DecidableEq

/-- One main-loop iteration's use of `read_new_lines`: an
`UnboundLocalError` escaping the call terminates the loop (caught only by
the outer `except Exception` of `run`, whose `finally` runs `cleanup`). -/
def runLoopStep (hasFile statOk : Bool) (content : List Char) (pos : Nat)
    (fault : Option Nat) : LoopOutcome :=
  match read_new_lines hasFile statOk content pos fault with
  | (ReadResult.unboundLocalError, _) => LoopOutcome.terminated true
  | (ReadResult.ok ls, p) => LoopOutcome.continues ls p

/-- `UDPLogRelay.open_log_file` (src/udp_log_relay.py lines 110–139).
`statRes` is `none` when the path does not exist or stat/open raises (the
function logs and returns `False` with the state untouched); on success the
handle is open, the cursor seeks to end-of-file (so `file_position` becomes
the size), and the fingerprint is recorded. -/
def open_log_file (st : RelayState) (statRes : Option Fingerprint) :
    RelayState × Bool :=
  match statRes with
  | none => (st, false)
  | some fp =>
    ({ log_file := true, file_position := fp.size, file_inode := some fp.ino,
       file_mtime := some fp.mtime, rotation_count := st.rotation_count },
      true)

/-- `UDPLogRelay.close_log_file` (src/udp_log_relay.py lines 141–146). -/
def close_log_file (st : RelayState) : RelayState :=
  { st with log_file := false }

/-- The successive values of `retry_delay`: the configured initial delay,
then `min(retry_delay * 1.5, 5.0)` after each failed attempt
(src/udp_log_relay.py line 228). -/
def cappedDelay (d : ℚ) : Nat → ℚ
  | 0 => d
  | j + 1 => min (cappedDelay d j * (3 / 2)) 5

/-- The retry `for` loop of `handle_file_rotation`
(src/udp_log_relay.py lines 212–228): sleep `delay`, attempt
`open_log_file` with the environment's answer for attempt `i`, return on
success, otherwise grow the delay and continue.  Returns the final state
together with the list of delays slept (one sleep precedes every open
attempt, so its length is the number of attempts made). -/
def rotationLoop (env : Nat → Option Fingerprint) :
    Nat → RelayState → Nat → ℚ → RelayState × List ℚ
  | 0, st, _, _ => (st, [])
  | fuel + 1, st, i, delay =>
    let r := open_log_file st (env i)
    if r.2 then (r.1, [delay])
    else
      let rest := rotationLoop env fuel r.1 (i + 1) (min (delay * (3 / 2)) 5)
      (rest.1, delay :: rest.2)

/-- `UDPLogRelay.handle_file_rotation` (src/udp_log_relay.py lines
195–230): bump `rotation_count`, close the handle, clear the tracking
fields, then retry opening with backoff.  `env i` is what the `i`-th open
attempt finds at the path. -/
def handle_file_rotation (env : Nat → Option Fingerprint) (st : RelayState)
    (maxRetries : Nat) (initialDelay : ℚ) : RelayState × List ℚ :=
  let st1 := close_log_file st
  let st2 : RelayState :=
    { st1 with
      file_position := 0
      file_inode := none
      file_mtime := none
      rotation_count := st1.rotation_count + 1 }
  rotationLoop env maxRetries st2 0 initialDelay

/-- The literal `"... [truncated]"` marker appended by `send_udp_message`
(src/udp_log_relay.py line 290). -/
def truncationMarker : List Char := "... [truncated]".data

/-- The truncation step of `send_udp_message` (src/udp_log_relay.py lines
288–290): a message longer than `MAX_LINE_LENGTH` is cut to its first
`maxLen` characters with the marker appended, before encoding; a message of
length at most `maxLen` passes unchanged. -/
def truncateForSend (maxLen : Nat) (message : List Char) : List Char :=
  if maxLen < message.length then message.take maxLen ++ truncationMarker
  else message

/-- Byte length of `message.encode('utf-8')`, the value `sendto` returns on
a full send. -/
def utf8Length (l : List Char) : Nat := (l.map Char.utf8Size).sum

/-- The five counters of the `self.stats` dict
(src/udp_log_relay.py lines 36–44); `start_time` and `last_activity` are
wall-clock values and are not modelled. -/
structure RelayStats where
  lines_processed : Nat
  lines_sent : Nat
  lines_failed : Nat
  bytes_sent : Nat
  rotation_count : Nat
deriving DecidableEq

/-- What the transport does with one datagram: `sendto` succeeds, raises
`socket.timeout`, or raises some other exception. -/
inductive SendOutcome
  | delivered
  | timeout
  | sockError
deriving DecidableEq

/-- `UDPLogRelay.send_udp_message` (src/udp_log_relay.py lines 282–308):
without a socket it returns `False` touching no counter; otherwise it
truncates, encodes and sends, incrementing `lines_sent` and adding the sent
byte count on success, or incrementing `lines_failed` on timeout or
error. -/
def send_udp_message (hasSocket : Bool) (maxLen : Nat) (stats : RelayStats)
    (message : List Char) (out : SendOutcome) : RelayStats × Bool :=
  if !hasSocket then (stats, false)
  else
    match out with
    | SendOutcome.delivered =>
      ({ stats with
          lines_sent := stats.lines_sent + 1
          bytes_sent := stats.bytes_sent +
            utf8Length (truncateForSend maxLen message) }, true)
    | SendOutcome.timeout =>
      ({ stats with lines_failed := stats.lines_failed + 1 }, false)
    | SendOutcome.sockError =>
      ({ stats with lines_failed := stats.lines_failed + 1 }, false)

/-- The per-line send loop of `run` (src/udp_log_relay.py lines 390–392):
each line of the batch is sent in order; a failed send is only logged.  In
`run` the socket is created before the loop and closed only in `cleanup`,
so inside the loop `send_udp_message` always runs with the socket
present. -/
def processBatch (maxLen : Nat) (stats : RelayStats)
    (batch : List (List Char × SendOutcome)) : RelayStats :=
  batch.foldl (fun s p => (send_udp_message true maxLen s p.1 p.2).1) stats

/-- The statistics-relevant events of one `while self.running` iteration of
`run` (src/udp_log_relay.py lines 374–392): whether a rotation was handled
this cycle, and the batch `read_new_lines` returned with each line's send
outcome. -/
structure CycleInput where
  rotated : Bool
  batch : List (List Char × SendOutcome)

/-- One full cycle of the relay loop as it updates the statistics: a
rotation recovery bumps `rotation_count` (src/udp_log_relay.py line 197),
`lines_processed` grows by the batch length (line 387), then every line is
sent (lines 390–392). -/
def relayCycle (maxLen : Nat) (stats : RelayStats) (c : CycleInput) :
    RelayStats :=
  let s1 := if c.rotated then
      { stats with rotation_count := stats.rotation_count + 1 }
    else stats
  let s2 := { s1 with
    lines_processed := s1.lines_processed + c.batch.length }
  processBatch maxLen s2 c.batch

/-- A run of consecutive relay-loop cycles; the state after any prefix is an
observation point with no in-flight batch. -/
def runCycles (maxLen : Nat) (stats : RelayStats) (cs : List CycleInput) :
    RelayStats :=
  cs.foldl (relayCycle maxLen) stats

/-- The claimed statistics invariant. -/
def statsInv (s : RelayStats) : Prop :=
  s.lines_sent + s.lines_failed = s.lines_processed

/-- Pointwise order on the five counters (monotonicity across the run). -/
def statsLe (a b : RelayStats) : Prop :=
  a.lines_processed ≤ b.lines_processed ∧ a.lines_sent ≤ b.lines_sent ∧
  a.lines_failed ≤ b.lines_failed ∧ a.bytes_sent ≤ b.bytes_sent ∧
  a.rotation_count ≤ b.rotation_count

/-- `Config.validate` (src/config.py lines 38–53): only the UDP port range
is checked (`1 <= UDP_PORT <= 65535`; an out-of-range port raises
`ValueError`, caught to return `False`); the buffer size is never examined,
and the directory-existence check only prints a warning. -/
def Config.validate (udpPort : Int) (udpBufferSize : Int) : Bool :=
  decide (1 ≤ udpPort ∧ udpPort ≤ 65535)

/-- How far `run` (src/udp_log_relay.py lines 334–366) gets through its
startup sequence: configuration validation (line 342), then socket creation
(line 357), then the first file open (line 361); each failure returns
`False` from `run` without reaching the later steps. -/
inductive StartOutcome
  | configRejected
  | socketFailed
  | fileFailed
  | started
deriving DecidableEq

/-- The startup sequence of `run` up to entering the main loop. -/
def runStartup (validateOk sockOk fileOk : Bool) : StartOutcome :=
  if !validateOk then StartOutcome.configRejected
  else if !sockOk then StartOutcome.socketFailed
  else if !fileOk then StartOutcome.fileFailed
  else StartOutcome.started

end UDPLogRelay

namespace UDPLogRelay

/-- A `readline` result concatenated with the rest restores the input. -/
theorem readlineSplit_append (s : List Char) :
    (readlineSplit s).1 ++ (readlineSplit s).2 = s := by
  induction s with
  | nil => rfl
  | cons c cs ih =>
    by_cases h : c = '\n'
    · simp [readlineSplit, h]
    · simp [readlineSplit, h, ih]

/-- `readline` returns the empty string exactly at EOF. -/
theorem readlineSplit_fst_nil_iff (s : List Char) :
    (readlineSplit s).1 = [] ↔ s = [] := by
  cases s with
  | nil => simp [readlineSplit]
  | cons c cs =>
    simp only [readlineSplit]
    by_cases h : c = '\n' <;> simp [h]

/-- The two parts of a `readline` split partition the length. -/
theorem readlineSplit_length (s : List Char) :
    (readlineSplit s).1.length + (readlineSplit s).2.length = s.length := by
  have h := congrArg List.length (readlineSplit_append s)
  simpa using h

/-- `splitKeepNL` peels off exactly one `readline` unit at a time. -/
theorem splitKeepNL_cons (c : Char) (cs : List Char) :
    splitKeepNL (c :: cs) =
      (readlineSplit (c :: cs)).1 :: splitKeepNL (readlineSplit (c :: cs)).2 := by
  induction cs generalizing c with
  | nil => by_cases h : c = '\n' <;> simp [splitKeepNL, readlineSplit, h]
  | cons d ds ih =>
    by_cases h : c = '\n'
    · simp [splitKeepNL, readlineSplit, h]
    · have h1 : splitKeepNL (c :: d :: ds) =
          (match splitKeepNL (d :: ds) with
            | [] => [[c]]
            | l :: ls => (c :: l) :: ls) := by
        conv_lhs => rw [splitKeepNL]
        rw [if_neg h]
      have h2 : readlineSplit (c :: d :: ds) =
          (c :: (readlineSplit (d :: ds)).1, (readlineSplit (d :: ds)).2) := by
        conv_lhs => rw [readlineSplit]
        rw [if_neg h]
      rw [h1, h2, ih d]

/-- Faultless run of the readline loop: it consumes the whole suffix and
returns every `readline` unit, stripped, with empty results skipped. -/
theorem readLinesLoop_none (fuel : Nat) (s : List Char) (h : s.length < fuel) :
    readLinesLoop fuel s none =
      (((splitKeepNL s).map rstripNR).filter (fun l => decide (l ≠ [])),
        s.length) := by
  induction fuel generalizing s with
  | zero => omega
  | succ fuel ih =>
    cases s with
    | nil => simp [readLinesLoop, splitKeepNL, readlineSplit]
    | cons c cs =>
      have hne : (readlineSplit (c :: cs)).1 ≠ [] := by
        rw [Ne, readlineSplit_fst_nil_iff]; simp
      have hlen := readlineSplit_length (c :: cs)
      simp only [List.length_cons] at hlen h
      have hlt : (readlineSplit (c :: cs)).2.length < fuel := by
        have h1 : 0 < (readlineSplit (c :: cs)).1.length :=
          List.length_pos.2 hne
        omega
      have hnext := ih ((readlineSplit (c :: cs)).2) hlt
      rw [splitKeepNL_cons]
      simp only [readLinesLoop]
      rw [if_neg (by simp), if_neg hne]
      rw [show Option.map (fun k : Nat => k - 1) (none : Option Nat) = none
        from rfl, hnext]
      by_cases hstrip : rstripNR (readlineSplit (c :: cs)).1 = []
      · rw [if_pos hstrip]
        simp [hstrip]
        omega
      · rw [if_neg hstrip]
        simp [hstrip]
        omega

/-- Run of the readline loop whose `k`-th `readline` raises `OSError`: it
returns the stripped non-empty units among the first `k` and consumes
exactly their bytes. -/
theorem readLinesLoop_fault (fuel : Nat) (s : List Char) (k : Nat)
    (h : s.length < fuel) :
    readLinesLoop fuel s (some k) =
      ((((splitKeepNL s).take k).map rstripNR).filter (fun l => decide (l ≠ [])),
        (((splitKeepNL s).take k).map List.length).sum) := by
  induction fuel generalizing s k with
  | zero => omega
  | succ fuel ih =>
    cases k with
    | zero => simp [readLinesLoop]
    | succ k =>
      cases s with
      | nil => simp [readLinesLoop, splitKeepNL, readlineSplit]
      | cons c cs =>
        have hne : (readlineSplit (c :: cs)).1 ≠ [] := by
          rw [Ne, readlineSplit_fst_nil_iff]; simp
        have hlen := readlineSplit_length (c :: cs)
        simp only [List.length_cons] at hlen h
        have hlt : (readlineSplit (c :: cs)).2.length < fuel := by
          have h1 : 0 < (readlineSplit (c :: cs)).1.length :=
            List.length_pos.2 hne
          omega
        have hnext := ih ((readlineSplit (c :: cs)).2) k hlt
        rw [splitKeepNL_cons]
        simp only [readLinesLoop]
        rw [if_neg (by simp), if_neg hne]
        rw [show Option.map (fun k : Nat => k - 1) (some (k + 1)) = some k
          from by simp, hnext]
        by_cases hstrip : rstripNR (readlineSplit (c :: cs)).1 = []
        · rw [if_pos hstrip]
          simp [hstrip]
        · rw [if_neg hstrip]
          simp [hstrip]

/-- **C2.** `check_file_rotation` returns `true` (Rotated) iff the path no
longer resolves (rule 1) or the fresh fingerprint triggers one of rules 2–4
(inode differs from a stored inode, size strictly below the read offset,
mtime strictly before a stored mtime); otherwise it returns `false`
(Unchanged) — for every value of the read probe, since the probe's guard
repeats rule 3's condition and is therefore never reached.  In particular a
file recreated at the same path with a different inode is classified Rotated
even when size and mtime look unchanged (rule 2 fires). -/
theorem check_file_rotation_iff_rules (st : RelayState)
    (statResult : Option Fingerprint) (probe : ProbeResult) :
    check_file_rotation st statResult probe = true ↔
      (statResult = none ∨ ∃ fp, statResult = some fp ∧ rotationSignal st fp) := by
  cases statResult with
  | none => simp [check_file_rotation]
  | some fp =>
    simp only [check_file_rotation, rotationSignal, Option.some.injEq,
      reduceCtorEq, false_or]
    constructor
    · intro h
      refine ⟨fp, rfl, ?_⟩
      by_cases h1 : (match st.file_inode with
          | some i => decide (fp.ino ≠ i)
          | none => false) = true
      · left
        cases hi : st.file_inode with
        | none => rw [hi] at h1; simp at h1
        | some i => rw [hi] at h1; exact ⟨i, rfl, by simpa using h1⟩
      · rw [if_neg (by simpa using h1)] at h
        by_cases h2 : fp.size < st.file_position
        · exact Or.inr (Or.inl h2)
        · rw [if_neg (by simpa using h2)] at h
          by_cases h3 : (match st.file_mtime with
              | some m => decide (fp.mtime < m)
              | none => false) = true
          · right; right
            cases hm : st.file_mtime with
            | none => rw [hm] at h3; simp at h3
            | some m => rw [hm] at h3; exact ⟨m, rfl, by simpa using h3⟩
          · rw [if_neg (by simpa using h3)] at h
            by_cases h4 : (st.log_file && decide (0 < st.file_position)
                && decide (fp.size < st.file_position)) = true
            · exfalso
              have := And.right (by simpa [Bool.and_eq_true] using h4)
              exact h2 (by simpa using this)
            · rw [if_neg (by simpa using h4)] at h
              exact absurd h (by simp)
    · rintro ⟨fp', rfl, hsig⟩
      rcases hsig with ⟨i, hi, hne⟩ | hsz | ⟨m, hm, hlt⟩
      · rw [if_pos (by rw [hi]; simpa using hne)]
      · by_cases h1 : (match st.file_inode with
            | some i => decide (fp.ino ≠ i)
            | none => false) = true
        · rw [if_pos h1]
        · rw [if_neg (by simpa using h1), if_pos (by simpa using hsz)]
      · by_cases h1 : (match st.file_inode with
            | some i => decide (fp.ino ≠ i)
            | none => false) = true
        · rw [if_pos h1]
        · rw [if_neg (by simpa using h1)]
          by_cases h2 : fp.size < st.file_position
          · rw [if_pos (by simpa using h2)]
          · rw [if_neg (by simpa using h2),
              if_pos (show (match st.file_mtime with
                | some m => decide (fp.mtime < m)
                | none => false) = true by rw [hm]; simpa using hlt)]

/-- **C3.** The read probe of Method 4 never influences the classification:
its guard demands `size < file_position`, which Method 2 has already turned
into `Rotated`, so the probe branch is dead code.  Concretely, with an open
handle, offset 5, stored inode 1 and mtime 10, and a fresh stat showing the
same inode and mtime with size 10 (≥ offset), a probe returning zero bytes
or raising an I/O fault still yields `false` (Unchanged), contradicting the
spec's rule 5 which demands `Rotated` there. -/
theorem check_file_rotation_probe_dead :
    (∀ st statResult probe probe',
        check_file_rotation st statResult probe =
          check_file_rotation st statResult probe') ∧
    check_file_rotation ⟨true, 5, some 1, some 10, 0⟩ (some ⟨1, 10, 10⟩)
      ProbeResult.zeroBytes = false ∧
    check_file_rotation ⟨true, 5, some 1, some 10, 0⟩ (some ⟨1, 10, 10⟩)
      ProbeResult.ioFault = false := by
  refine ⟨?_, by decide, by decide⟩
  intro st statResult probe probe'
  cases statResult with
  | none => rfl
  | some fp =>
    simp only [check_file_rotation]
    by_cases h1 : (match st.file_inode with
        | some i => decide (fp.ino ≠ i)
        | none => false) = true
    · rw [if_pos h1, if_pos h1]
    · rw [if_neg h1, if_neg h1]
      by_cases h2 : decide (fp.size < st.file_position) = true
      · rw [if_pos h2, if_pos h2]
      · rw [if_neg h2, if_neg h2]
        by_cases h3 : (match st.file_mtime with
            | some m => decide (fp.mtime < m)
            | none => false) = true
        · rw [if_pos h3, if_pos h3]
        · rw [if_neg h3, if_neg h3]
          have h2f : decide (fp.size < st.file_position) = false := by
            simpa using h2
          have hguard : (st.log_file && decide (0 < st.file_position)
              && decide (fp.size < st.file_position)) = false := by
            rw [h2f]; simp
          rw [hguard]
          simp

/-- **C1 counterexample.** On an append `"abc"` with no line terminator,
`read_new_lines` returns the unterminated fragment immediately (Python's
`readline` returns the final partial line at EOF) and advances the offset
past it to 3 — it does not return the empty batch with the offset held at 0
that the claimed partial-line holdback requires. -/
theorem read_new_lines_forwards_fragment :
    read_new_lines true true ['a', 'b', 'c'] 0 none =
      (ReadResult.ok [['a', 'b', 'c']], 3) ∧
    read_new_lines true true ['a', 'b', 'c'] 0 none ≠
      (ReadResult.ok [], 0) := by
  constructor
  · decide
  · decide

/-- **C1 amended.** When the file has grown past the stored offset and no
fault occurs, `read_new_lines` returns, in file order, every `readline`
unit of the appended content with terminators stripped and blank results
skipped — **including** a final unterminated fragment, which is forwarded
at once rather than held back — and advances the stored offset to the end
of the whole appended region (end of file), not merely to the end of the
last terminator-ended line. -/
theorem read_new_lines_growth (content : List Char) (pos : Nat)
    (h : pos < content.length) :
    read_new_lines true true content pos none =
      (ReadResult.ok (((splitKeepNL (content.drop pos)).map rstripNR).filter
        (fun l => decide (l ≠ []))), content.length) := by
  have hdrop := readLinesLoop_none ((content.drop pos).length + 1)
    (content.drop pos) (by omega)
  simp only [read_new_lines, Bool.not_true, Bool.false_eq_true, if_false,
    hdrop]
  rw [if_neg (by omega)]
  have hp : pos + (content.drop pos).length = content.length := by
    rw [List.length_drop]
    omega
  rw [hp]

/-- Witness for C1's amended theorem at the concrete append `"a\nb"`: the
terminated line and the unterminated fragment are both returned and the
offset moves to 3. -/
theorem read_new_lines_growth_witness :
    read_new_lines true true ['a', '\n', 'b'] 0 none =
      (ReadResult.ok (((splitKeepNL (List.drop 0 ['a', '\n', 'b'])).map
        rstripNR).filter (fun l => decide (l ≠ []))), 3) :=
  read_new_lines_growth ['a', '\n', 'b'] 0 (by decide)

/-- **C4 counterexample.** With appended content `"ab\ncd\n"` and an
`OSError` raised by the second `readline` call, `read_new_lines` returns the
truncated batch `["ab"]` but sets the stored offset to 3 — the handle
position after the last successful read — not to 0 as the claim states: the
`except (OSError, IOError)` handler inside the loop only breaks, and
`self.file_position = self.log_file.tell()` still runs; the reset to 0 lives
in the outer handler, which an `OSError` from `readline` never reaches. -/
theorem read_new_lines_fault_keeps_offset :
    read_new_lines true true ['a', 'b', '\n', 'c', 'd', '\n'] 0 (some 1) =
      (ReadResult.ok [['a', 'b']], 3) ∧ (3 : Nat) ≠ 0 := by
  constructor
  · decide
  · decide

/-- **C4 amended.** If the `k`-th `readline` call raises an OS read fault
mid-scan, `read_new_lines` returns exactly the (stripped, non-blank) lines
completed before the fault, and sets the stored offset to the position of
the handle at the fault — the start position plus the bytes of the `k`
completed `readline` units — rather than resetting it to 0; only a fault
outside the readline loop (such as the initial stat) takes the outer
handler's reset-to-0 path. -/
theorem read_new_lines_fault_batch (content : List Char) (pos k : Nat)
    (h : pos < content.length) :
    read_new_lines true true content pos (some k) =
      (ReadResult.ok ((((splitKeepNL (content.drop pos)).take k).map
        rstripNR).filter (fun l => decide (l ≠ []))),
        pos + (((splitKeepNL (content.drop pos)).take k).map
          List.length).sum) := by
  have hdrop := readLinesLoop_fault ((content.drop pos).length + 1)
    (content.drop pos) k (by omega)
  simp only [read_new_lines, Bool.not_true, Bool.false_eq_true, if_false,
    hdrop]
  rw [if_neg (by omega)]

/-- Witness for C4's amended theorem at `"ab\ncd\n"` with the fault on the
second `readline`. -/
theorem read_new_lines_fault_batch_witness :
    read_new_lines true true ['a', 'b', '\n', 'c', 'd', '\n'] 0 (some 1) =
      (ReadResult.ok ((((splitKeepNL (List.drop 0
        ['a', 'b', '\n', 'c', 'd', '\n'])).take 1).map rstripNR).filter
        (fun l => decide (l ≠ []))),
        0 + (((splitKeepNL (List.drop 0
          ['a', 'b', '\n', 'c', 'd', '\n'])).take 1).map List.length).sum) :=
  read_new_lines_fault_batch ['a', 'b', '\n', 'c', 'd', '\n'] 0 1 (by decide)

/-- **C9.** When the initial `stat` of the watched path raises (with an open
handle), the outer handler of `read_new_lines` sets `file_position` to 0 and
the function then evaluates `return new_lines` with `new_lines` never
assigned, raising `UnboundLocalError`: the call does not return an empty
list, the exception escapes into `run`'s main loop, the loop terminates, and
the `finally` clause still runs `cleanup`. -/
theorem read_new_lines_stat_fault_escapes (content : List Char) (pos : Nat)
    (fault : Option Nat) :
    read_new_lines true false content pos fault =
      (ReadResult.unboundLocalError, 0) ∧
    runLoopStep true false content pos fault = LoopOutcome.terminated true := by
  constructor
  · rfl
  · rfl

/-- Every line the readline loop accumulates is non-empty: blank lines are
dropped by the `if line:` test after stripping. -/
theorem readLinesLoop_mem_ne_nil (fuel : Nat) (s : List Char)
    (fault : Option Nat) (l : List Char)
    (hl : l ∈ (readLinesLoop fuel s fault).1) : l ≠ [] := by
  induction fuel generalizing s fault with
  | zero => simp [readLinesLoop] at hl
  | succ fuel ih =>
    simp only [readLinesLoop] at hl
    by_cases h0 : fault = some 0
    · rw [if_pos h0] at hl
      simp at hl
    · rw [if_neg h0] at hl
      by_cases hline : (readlineSplit s).1 = []
      · rw [if_pos hline] at hl
        simp at hl
      · rw [if_neg hline] at hl
        by_cases hstrip : rstripNR (readlineSplit s).1 = []
        · rw [if_pos hstrip] at hl
          exact ih _ _ hl
        · rw [if_neg hstrip] at hl
          simp only [List.mem_cons] at hl
          rcases hl with rfl | hl
          · exact hstrip
          · exact ih _ _ hl

/-- **C10.** A completed line that is blank after stripping trailing LF/CR
is never an element of the list `read_new_lines` returns (so it is never
forwarded and, since `lines_processed` is incremented by the returned list's
length, never counted), yet the stored offset still advances past it to the
end of the content read. -/
theorem read_new_lines_omits_blank (hasFile statOk : Bool)
    (content : List Char) (pos : Nat) (fault : Option Nat) :
    (∀ l ∈ ((read_new_lines hasFile statOk content pos fault).1).lines,
      l ≠ []) ∧
    (pos < content.length →
      (read_new_lines true true content pos none).2 = content.length) := by
  constructor
  · intro l hl
    cases hf : hasFile with
    | false =>
      rw [hf] at hl
      simp [read_new_lines, ReadResult.lines] at hl
    | true =>
      cases hs : statOk with
      | false =>
        rw [hf, hs] at hl
        simp [read_new_lines, ReadResult.lines] at hl
      | true =>
        rw [hf, hs] at hl
        by_cases hsz : content.length ≤ pos
        · simp [read_new_lines, hsz, ReadResult.lines] at hl
        · simp only [read_new_lines, Bool.not_true, Bool.false_eq_true,
            if_false] at hl
          rw [if_neg hsz] at hl
          simp only [ReadResult.lines] at hl
          exact readLinesLoop_mem_ne_nil _ _ _ l hl
  · intro h
    have hdrop := readLinesLoop_none ((content.drop pos).length + 1)
      (content.drop pos) (by omega)
    simp only [read_new_lines, Bool.not_true, Bool.false_eq_true, if_false,
      hdrop]
    rw [if_neg (by omega)]
    rw [List.length_drop]
    omega

/-- Witness for C10 at content `"a\n\nb\n"`, whose second line is blank:
every returned line is non-blank and the offset advances to 5. -/
theorem read_new_lines_omits_blank_witness :
    (∀ l ∈ ((read_new_lines true true ['a', '\n', '\n', 'b', '\n'] 0
      none).1).lines, l ≠ []) ∧
    (read_new_lines true true ['a', '\n', '\n', 'b', '\n'] 0 none).2 = 5 :=
  ⟨(read_new_lines_omits_blank true true ['a', '\n', '\n', 'b', '\n'] 0
      none).1,
    (read_new_lines_omits_blank true true ['a', '\n', '\n', 'b', '\n'] 0
      none).2 (by decide)⟩

/-- Growing the starting delay one step commutes with the backoff
recurrence. -/
theorem cappedDelay_shift (d : ℚ) (j : Nat) :
    cappedDelay (min (d * (3 / 2)) 5) j = cappedDelay d (j + 1) := by
  induction j with
  | zero => rfl
  | succ j ih => simp only [cappedDelay, ih]

/-- The retry loop sleeps at most `fuel` times, and the `j`-th delay slept
follows the capped geometric backoff from the starting delay. -/
theorem rotationLoop_delays (env : Nat → Option Fingerprint) (fuel : Nat)
    (st : RelayState) (i : Nat) (d : ℚ) :
    (rotationLoop env fuel st i d).2.length ≤ fuel ∧
    ∀ j, j < (rotationLoop env fuel st i d).2.length →
      (rotationLoop env fuel st i d).2[j]? = some (cappedDelay d j) := by
  induction fuel generalizing st i d with
  | zero => simp [rotationLoop]
  | succ fuel ih =>
    simp only [rotationLoop]
    by_cases hs : (open_log_file st (env i)).2 = true
    · rw [if_pos hs]
      refine ⟨by simp, ?_⟩
      intro j hj
      simp only [List.length_singleton] at hj
      have hj0 : j = 0 := by omega
      subst hj0
      rfl
    · rw [if_neg hs]
      obtain ⟨ih1, ih2⟩ :=
        ih (open_log_file st (env i)).1 (i + 1) (min (d * (3 / 2)) 5)
      refine ⟨by simpa using Nat.succ_le_succ ih1, ?_⟩
      intro j hj
      cases j with
      | zero => simp [cappedDelay]
      | succ j =>
        simp only [List.length_cons] at hj
        simp only [List.getElem?_cons_succ]
        rw [ih2 j (by omega), cappedDelay_shift]

/-- If every attempt the loop can make fails, the state is returned
untouched and all `fuel` attempts are made. -/
theorem rotationLoop_all_fail (env : Nat → Option Fingerprint) (fuel : Nat)
    (st : RelayState) (i : Nat) (d : ℚ)
    (h : ∀ j, j < fuel → env (i + j) = none) :
    (rotationLoop env fuel st i d).1 = st ∧
    (rotationLoop env fuel st i d).2.length = fuel := by
  induction fuel generalizing st i d with
  | zero => simp [rotationLoop]
  | succ fuel ih =>
    have h0 : env i = none := by simpa using h 0 (by omega)
    obtain ⟨ih1, ih2⟩ := ih st (i + 1) (min (d * (3 / 2)) 5)
      (fun j hj => by
        have hx := h (j + 1) (by omega)
        rw [show i + (j + 1) = i + 1 + j by omega] at hx
        exact hx)
    simp only [rotationLoop, h0, open_log_file]
    simp [ih1, ih2]

/-- If the first `k` attempts fail and attempt `k` (still within the
budget) succeeds with fingerprint `fp`, the loop returns the reopened
state — end-of-file offset and fresh fingerprint — after `k + 1`
attempts. -/
theorem rotationLoop_first_success (env : Nat → Option Fingerprint)
    (fuel k : Nat) (st : RelayState) (i : Nat) (d : ℚ) (fp : Fingerprint)
    (hk : k < fuel) (hfp : env (i + k) = some fp)
    (hfail : ∀ j, j < k → env (i + j) = none) :
    (rotationLoop env fuel st i d).1 =
      { log_file := true, file_position := fp.size,
        file_inode := some fp.ino, file_mtime := some fp.mtime,
        rotation_count := st.rotation_count } ∧
    (rotationLoop env fuel st i d).2.length = k + 1 := by
  induction k generalizing fuel st i d with
  | zero =>
    cases fuel with
    | zero => omega
    | succ fuel =>
      have h0 : env i = some fp := by simpa using hfp
      simp [rotationLoop, h0, open_log_file]
  | succ k ih =>
    cases fuel with
    | zero => omega
    | succ fuel =>
      have h0 : env i = none := by simpa using hfail 0 (by omega)
      obtain ⟨ih1, ih2⟩ := ih fuel st (i + 1) (min (d * (3 / 2)) 5)
        (by omega)
        (by rw [show i + 1 + k = i + (k + 1) by omega]; exact hfp)
        (fun j hj => by
          have hx := hfail (j + 1) (by omega)
          rw [show i + (j + 1) = i + 1 + j by omega] at hx
          exact hx)
      simp only [rotationLoop, h0, open_log_file]
      simp [ih1, ih2]

/-- **C5.** `handle_file_rotation` sleeps then attempts `open_log_file` at
most `maxRetries` (`ROTATION_RETRY_ATTEMPTS`, default 5) times; the `j`-th
delay slept equals the configured initial delay multiplied by 1.5 after each
failed attempt and capped at 5.0 (`cappedDelay`); if every attempt fails it
returns — it is a total function, nothing escapes — with the engine Closed:
no handle, offset 0, cleared fingerprint, after using the full budget; and
if attempt `k` is the first to succeed it returns after `k + 1` attempts
with the reopened state (handle open, offset at end of file, fresh
fingerprint) established.  `rotation_count` is incremented exactly once
either way. -/
theorem handle_file_rotation_spec (env : Nat → Option Fingerprint)
    (st : RelayState) (maxRetries : Nat) (d : ℚ) :
    ((handle_file_rotation env st maxRetries d).2.length ≤ maxRetries) ∧
    (∀ j, j < (handle_file_rotation env st maxRetries d).2.length →
      (handle_file_rotation env st maxRetries d).2[j]? =
        some (cappedDelay d j)) ∧
    ((∀ i, i < maxRetries → env i = none) →
      (handle_file_rotation env st maxRetries d).1 =
        { log_file := false, file_position := 0, file_inode := none,
          file_mtime := none, rotation_count := st.rotation_count + 1 } ∧
      (handle_file_rotation env st maxRetries d).2.length = maxRetries) ∧
    (∀ k fp, k < maxRetries → env k = some fp →
      (∀ j, j < k → env j = none) →
      (handle_file_rotation env st maxRetries d).1 =
        { log_file := true, file_position := fp.size,
          file_inode := some fp.ino, file_mtime := some fp.mtime,
          rotation_count := st.rotation_count + 1 } ∧
      (handle_file_rotation env st maxRetries d).2.length = k + 1) := by
  have hunfold : handle_file_rotation env st maxRetries d =
      rotationLoop env maxRetries
        { log_file := false, file_position := 0, file_inode := none,
          file_mtime := none, rotation_count := st.rotation_count + 1 }
        0 d := rfl
  rw [hunfold]
  refine ⟨(rotationLoop_delays env maxRetries _ 0 d).1,
    (rotationLoop_delays env maxRetries _ 0 d).2, ?_, ?_⟩
  · intro hall
    exact rotationLoop_all_fail env maxRetries _ 0 d
      (fun j hj => by simpa using hall j hj)
  · intro k fp hk hfp hfail
    have hres := rotationLoop_first_success env maxRetries k
      { log_file := false, file_position := 0, file_inode := none,
        file_mtime := none, rotation_count := st.rotation_count + 1 }
      0 d fp hk
      (by simpa using hfp) (fun j hj => by simpa using hfail j hj)
    simpa using hres

/-- Witness for C5: with a path that never reappears, five attempts run and
the engine ends Closed. -/
theorem handle_file_rotation_spec_witness :
    (handle_file_rotation (fun _ => none) ⟨true, 7, some 3, some 4, 0⟩
        5 1).1 =
      { log_file := false, file_position := 0, file_inode := none,
        file_mtime := none, rotation_count := 1 } ∧
    (handle_file_rotation (fun _ => none) ⟨true, 7, some 3, some 4, 0⟩
        5 1).2.length = 5 :=
  (handle_file_rotation_spec (fun _ => none) ⟨true, 7, some 3, some 4, 0⟩
      5 1).2.2.1 (fun _ _ => rfl)

/-- One send attempt moves exactly one line from pending to
sent-or-failed and never decreases a counter. -/
theorem send_udp_message_counts (maxLen : Nat) (s : RelayStats)
    (m : List Char) (o : SendOutcome) :
    (send_udp_message true maxLen s m o).1.lines_sent +
        (send_udp_message true maxLen s m o).1.lines_failed =
      s.lines_sent + s.lines_failed + 1 ∧
    (send_udp_message true maxLen s m o).1.lines_processed =
      s.lines_processed ∧
    (send_udp_message true maxLen s m o).1.rotation_count =
      s.rotation_count ∧
    statsLe s (send_udp_message true maxLen s m o).1 := by
  cases o <;> simp [send_udp_message, statsLe] <;> omega

/-- Sending a whole batch adds its length to sent-plus-failed, leaves
`lines_processed` and `rotation_count` alone, and never decreases a
counter. -/
theorem processBatch_counts (maxLen : Nat) (s : RelayStats)
    (batch : List (List Char × SendOutcome)) :
    (processBatch maxLen s batch).lines_sent +
        (processBatch maxLen s batch).lines_failed =
      s.lines_sent + s.lines_failed + batch.length ∧
    (processBatch maxLen s batch).lines_processed = s.lines_processed ∧
    (processBatch maxLen s batch).rotation_count = s.rotation_count ∧
    statsLe s (processBatch maxLen s batch) := by
  induction batch generalizing s with
  | nil => simp [processBatch, statsLe]
  | cons p ps ih =>
    have hsend := send_udp_message_counts maxLen s p.1 p.2
    have hrest := ih ((send_udp_message true maxLen s p.1 p.2).1)
    simp only [processBatch, List.foldl_cons] at hrest ⊢
    simp only [statsLe] at hsend hrest ⊢
    simp only [List.length_cons]
    omega

/-- A relay cycle is batch processing over the statistics with
`rotation_count` and `lines_processed` pre-bumped. -/
theorem relayCycle_eq (maxLen : Nat) (s : RelayStats) (c : CycleInput) :
    relayCycle maxLen s c =
      processBatch maxLen
        { s with
          rotation_count := s.rotation_count + (if c.rotated then 1 else 0)
          lines_processed := s.lines_processed + c.batch.length }
        c.batch := by
  obtain ⟨p1, p2, p3, p4, p5⟩ := s
  by_cases hr : c.rotated <;> simp [relayCycle, hr]

/-- One observed cycle preserves the invariant and the counter order. -/
theorem relayCycle_step (maxLen : Nat) (s : RelayStats) (c : CycleInput)
    (h : statsInv s) :
    statsInv (relayCycle maxLen s c) ∧ statsLe s (relayCycle maxLen s c) := by
  rw [relayCycle_eq]
  have hb := processBatch_counts maxLen
    { s with
      rotation_count := s.rotation_count + (if c.rotated then 1 else 0)
      lines_processed := s.lines_processed + c.batch.length }
    c.batch
  simp only [statsLe, statsInv] at hb h ⊢
  omega

/-- **C6.** Starting from any statistics satisfying
`lines_sent + lines_failed = lines_processed` (as the all-zero initial
statistics do), after any sequence of full relay-loop cycles — each cycle:
optional rotation recovery, `lines_processed += len(batch)`, then one send
attempt per line — the invariant holds again at the observation point
between cycles, and every one of the five counters is monotonically
non-decreasing across the run. -/
theorem relay_statistics_inv (maxLen : Nat) (s : RelayStats)
    (cs : List CycleInput) (h : statsInv s) :
    statsInv (runCycles maxLen s cs) ∧ statsLe s (runCycles maxLen s cs) := by
  induction cs generalizing s with
  | nil =>
    refine ⟨h, ?_⟩
    simp [statsLe, runCycles]
  | cons c cs ih =>
    have hstep := relayCycle_step maxLen s c h
    have hrest := ih (relayCycle maxLen s c) hstep.1
    simp only [runCycles, List.foldl_cons] at hrest ⊢
    refine ⟨hrest.1, ?_⟩
    have h1 := hstep.2
    have h2 := hrest.2
    simp only [statsLe] at h1 h2 ⊢
    omega

/-- Witness for C6: a concrete cycle with one delivered and one timed-out
line after a rotation, starting from the zeroed statistics. -/
theorem relay_statistics_inv_witness :
    statsInv (runCycles 8192 ⟨0, 0, 0, 0, 0⟩
      [⟨true, [(['h', 'i'], SendOutcome.delivered),
        (['y', 'o'], SendOutcome.timeout)]⟩]) ∧
    statsLe ⟨0, 0, 0, 0, 0⟩ (runCycles 8192 ⟨0, 0, 0, 0, 0⟩
      [⟨true, [(['h', 'i'], SendOutcome.delivered),
        (['y', 'o'], SendOutcome.timeout)]⟩]) :=
  relay_statistics_inv 8192 ⟨0, 0, 0, 0, 0⟩
    [⟨true, [(['h', 'i'], SendOutcome.delivered),
      (['y', 'o'], SendOutcome.timeout)]⟩] rfl

/-- **C7.** `send_udp_message` truncates before encoding, deterministically
(it is a function of its input): a message of length at most `maxLen`
(`MAX_LINE_LENGTH`) passes unmodified; a longer message becomes its first
`maxLen` characters with the fixed marker appended; for length exactly
`maxLen + 1` the pre-encoding payload length is `maxLen` plus the marker's
length; and on a successful send `bytes_sent` grows by the encoded size of
exactly that truncated payload. -/
theorem send_truncation (maxLen : Nat) (message : List Char) :
    (message.length ≤ maxLen → truncateForSend maxLen message = message) ∧
    (maxLen < message.length →
      truncateForSend maxLen message =
        message.take maxLen ++ truncationMarker) ∧
    (message.length = maxLen + 1 →
      (truncateForSend maxLen message).length =
        maxLen + truncationMarker.length) ∧
    (∀ s : RelayStats,
      (send_udp_message true maxLen s message
        SendOutcome.delivered).1.bytes_sent =
      s.bytes_sent + utf8Length (truncateForSend maxLen message)) := by
  refine ⟨?_, ?_, ?_, ?_⟩
  · intro h
    simp only [truncateForSend]
    rw [if_neg (by omega)]
  · intro h
    simp only [truncateForSend]
    rw [if_pos h]
  · intro h
    simp only [truncateForSend]
    rw [if_pos (by omega)]
    simp only [List.length_append, List.length_take]
    omega
  · intro s
    simp [send_udp_message]

/-- Witness for C7 at `maxLen = 3` and the length-4 message `"abcd"`. -/
theorem send_truncation_witness :
    truncateForSend 3 ['a', 'b', 'c', 'd'] =
      List.take 3 ['a', 'b', 'c', 'd'] ++ truncationMarker ∧
    (truncateForSend 3 ['a', 'b', 'c', 'd']).length =
      3 + truncationMarker.length :=
  ⟨(send_truncation 3 ['a', 'b', 'c', 'd']).2.1 (by decide),
    (send_truncation 3 ['a', 'b', 'c', 'd']).2.2.1 (by decide)⟩

/-- **C8 counterexample.** A configuration with the valid port 514 and
buffer size 0 — an invalid buffer size — still passes `Config.validate`
(it returns `true`): nothing in `validate` reads the buffer size, so the
claim that an invalid buffer size makes validation fail is false. -/
theorem validate_ignores_buffer : Config.validate 514 0 = true := by decide

/-- **C8 amended.** `Config.validate` returns `true` iff the UDP port lies
in 1..65535 — for any buffer size whatsoever, which it never examines — and
whenever it returns `false`, `run` returns `False` at the validation step,
before creating the socket or opening the file. -/
theorem validate_port_only (udpPort udpBufferSize : Int)
    (sockOk fileOk : Bool) :
    (Config.validate udpPort udpBufferSize = true ↔
      (1 ≤ udpPort ∧ udpPort ≤ 65535)) ∧
    (Config.validate udpPort udpBufferSize = false →
      runStartup (Config.validate udpPort udpBufferSize) sockOk fileOk =
        StartOutcome.configRejected) := by
  constructor
  · simp [Config.validate]
  · intro h
    rw [h]
    rfl

/-- Witness for C8's amended theorem: port 0 is rejected before the socket
step even with a plausible buffer size. -/
theorem validate_port_only_witness :
    (Config.validate 0 1024 = true ↔ (1 ≤ (0 : Int) ∧ (0 : Int) ≤ 65535)) ∧
    runStartup (Config.validate 0 1024) true true =
      StartOutcome.configRejected :=
  ⟨(validate_port_only 0 1024 true true).1,
    (validate_port_only 0 1024 true true).2 (by decide)⟩

end UDPLogRelay
